import Mathlib

/-!
Verification development for the rapidcallai-crm repository.

The CRM service consists of an Express router (src/routes.js) over a
contact store.  The router source is present and is embedded here
directly; the contact-store module itself (createContact, updateContact,
deleteContact, getContact, getContactByPhone, upsertContactFromCall,
bulkCreateContacts) is not part of the available sources - only its
caller src/routes.js is - so those operations are modelled from the
specification (spec.md section 4.1), as indicated on each definition.

Machine integers do not occur: JavaScript numbers used here are small
counters and epoch-millisecond timestamps, modelled as Nat.
Strings are modelled as Lean strings; the string helpers below
(trimming, splitting, lower-casing) are structural re-implementations
of the JavaScript operations used by routes.js so that every function
in this file evaluates by kernel reduction.
-/

/-- Whitespace characters removed by the JavaScript trim used in routes.js. -/
def isWsChar (c : Char) : Bool :=
  c == ' ' || c == '\t' || c == '\n' || c == '\r'

/-- Trim on the character list: drop whitespace from both ends. -/
def trimList (l : List Char) : List Char :=
  ((l.dropWhile isWsChar).reverse.dropWhile isWsChar).reverse

/-- String trim, as performed by routes.js before validating input. -/
def strTrim (s : String) : String :=
  ⟨trimList s.data⟩

/-- Lower-case a single ASCII character, as toLowerCase does on the header names. -/
def lowerChar (c : Char) : Char :=
  if 'A' ≤ c ∧ c ≤ 'Z' then Char.ofNat (c.toNat + 32) else c

/-- Lower-case a string, as toLowerCase in routes.js. -/
def lowerStr (s : String) : String :=
  ⟨s.data.map lowerChar⟩

/-- Split a character list at every occurrence of the separator. -/
def splitCharAux (sep : Char) : List Char → List Char → List (List Char)
  | [], acc => [acc.reverse]
  | c :: rest, acc =>
      if c == sep then acc.reverse :: splitCharAux sep rest []
      else splitCharAux sep rest (c :: acc)

/-- Split a string on a separator character, as the split calls in routes.js. -/
def splitField (s : String) (sep : Char) : List String :=
  (splitCharAux sep s.data []).map (fun l => ⟨l⟩)

/-- Test for one of the characters 1 to 9 followed by digits, the tail of the
phone regular expression of routes.js: a digit in 1-9 and then 6 to 14 digits. -/
def e164Digits (l : List Char) : Bool :=
  match l with
  | [] => false
  | c :: rest =>
      c.isDigit && c != '0' && rest.all (fun d => d.isDigit) &&
        decide (6 ≤ rest.length) && decide (rest.length ≤ 14)

/-- Phone validation used throughout src/routes.js (lines 85, 180, 236, 252):
the regular expression there is an optional leading plus, then a digit 1-9,
then 6 to 14 digits. -/
def codePhonePattern (s : String) : Bool :=
  match s.data with
  | '+' :: rest => e164Digits rest
  | l => e164Digits l

/-- Phone pattern as the specification document writes it: a mandatory
leading plus, then a digit 1-9, then 6 to 14 digits.  Kept separate from
codePhonePattern so the two can be compared. -/
def specPhonePattern (s : String) : Bool :=
  match s.data with
  | '+' :: rest => e164Digits rest
  | _ => false

/-- Strip every character other than a digit or a plus, as the replace call
in the CSV import route. -/
def cleanPhone (s : String) : String :=
  ⟨s.data.filter (fun c => c.isDigit || c == '+')⟩

/-- Test for a leading plus, as startsWith in routes.js. -/
def startsPlus (s : String) : Bool :=
  match s.data with
  | '+' :: _ => true
  | _ => false

/-- Prepend a plus when it is missing, as the backfill and import routes do. -/
def normPhone (s : String) : String :=
  if startsPlus s then s else "+" ++ s

/-- Contact record as stored by the service (spec.md section 3).
Timestamps are epoch milliseconds modelled as Nat; the metadata JSON
object is modelled as an association list. -/
structure Contact where
  id : Nat
  workspaceId : String
  phoneE164 : String
  name : String
  email : String
  company : String
  tags : List String
  notes : String
  source : String
  metadata : List (String × String)
  totalCalls : Nat
  lastCallAt : Option Nat
  lastCallOutcome : Option String
  createdAt : Nat
  updatedAt : Nat
deriving DecidableEq, Repr

/-- Contact table state.  Identifier generation (nanoid in the service) is
modelled by a fresh counter: the property the service relies on is that a
newly generated id differs from every stored id. -/
structure Db where
  contacts : List Contact
  nextId : Nat
deriving DecidableEq, Repr

/-- Well-formedness of the stored table: every id is below the generation
counter and ids are pairwise distinct. -/
def Db.wf (db : Db) : Prop :=
  (∀ i ∈ db.contacts.map (fun c => c.id), i < db.nextId) ∧
    (db.contacts.map (fun c => c.id)).Nodup

instance (db : Db) : Decidable db.wf := by
  unfold Db.wf; infer_instance

/-- Row predicate for the uniqueness key: same workspace and same phone. -/
def pairPred (ws p : String) (c : Contact) : Bool :=
  c.workspaceId == ws && c.phoneE164 == p

/-- All stored contacts for one (workspace, phone) pair. -/
def pairFilter (ws p : String) (db : Db) : List Contact :=
  db.contacts.filter (pairPred ws p)

/-- Modelled from the spec: the store lookup of a contact by id used by the
get, update and delete routes (the contact-store module is not among the
available sources; routes.js is its only visible caller). -/
def getContact (db : Db) (id : Nat) : Option Contact :=
  db.contacts.find? (fun c => c.id == id)

/-- Modelled from the spec: the store lookup by the uniqueness key
(workspaceId, phoneE164) used by the backfill route and by the upsert. -/
def getContactByPhone (db : Db) (ws p : String) : Option Contact :=
  db.contacts.find? (pairPred ws p)

/-- Contact created by the call-derived upsert (spec.md section 4.1):
totalCalls 1, lastCallAt now, name from the candidate, source defaulting
to inbound. -/
def mkCallContact (id now : Nat) (ws p candidateName source : String) : Contact :=
  { id := id
    workspaceId := ws
    phoneE164 := p
    name := candidateName
    email := ""
    company := ""
    tags := []
    notes := ""
    source := if source == "" then "inbound" else source
    metadata := []
    totalCalls := 1
    lastCallAt := some now
    lastCallOutcome := none
    createdAt := now
    updatedAt := now }

/-- Modelled from the spec: update branch of the call upsert, applied to an
existing contact.  Increment totalCalls, set lastCallAt to now, and set the
name to the candidate only if the existing name is empty and the candidate
is not; email, company, tags and notes are untouched. -/
def upsertBump (c : Contact) (now : Nat) (candidateName : String) : Contact :=
  { c with
    totalCalls := c.totalCalls + 1
    lastCallAt := some now
    name := if c.name == "" && candidateName != "" then candidateName else c.name
    updatedAt := now }

/-- Modelled from the spec: upsert-from-call (spec.md section 4.1).  When no
contact exists for the pair, create one with totalCalls 1; when one exists,
apply the update branch above.  The operation is one atomic step,
reflecting the single-statement upsert contract of the spec. -/
def upsertContactFromCall (db : Db) (now : Nat) (ws p candidateName source : String) :
    Db × Contact :=
  match getContactByPhone db ws p with
  | some c =>
      let c' := upsertBump c now candidateName
      ({ db with contacts := db.contacts.map (fun x => if x.id == c.id then c' else x) }, c')
  | none =>
      let c := mkCallContact db.nextId now ws p candidateName source
      ({ contacts := db.contacts ++ [c], nextId := db.nextId + 1 }, c)

/-- Partial update sent to the store: absent fields are left unchanged,
present fields replace the stored value (spec.md section 4.1, updateContact). -/
structure Patch where
  name : Option String := none
  email : Option String := none
  company : Option String := none
  tags : Option (List String) := none
  notes : Option String := none
  metadata : Option (List (String × String)) := none
  totalCalls : Option Nat := none
  lastCallAt : Option Nat := none
  lastCallOutcome : Option String := none
deriving DecidableEq, Repr

/-- Test whether a patch carries no recognized field. -/
def Patch.isEmpty (p : Patch) : Bool :=
  p.name.isNone && p.email.isNone && p.company.isNone && p.tags.isNone &&
    p.notes.isNone && p.metadata.isNone && p.totalCalls.isNone &&
    p.lastCallAt.isNone && p.lastCallOutcome.isNone

/-- The patch with no field present. -/
def emptyPatch : Patch := {}

/-- Apply a non-empty patch to a stored contact, bumping updatedAt. -/
def applyPatch (c : Contact) (p : Patch) (now : Nat) : Contact :=
  { c with
    name := p.name.getD c.name
    email := p.email.getD c.email
    company := p.company.getD c.company
    tags := p.tags.getD c.tags
    notes := p.notes.getD c.notes
    metadata := p.metadata.getD c.metadata
    totalCalls := p.totalCalls.getD c.totalCalls
    lastCallAt := (match p.lastCallAt with | some v => some v | none => c.lastCallAt)
    lastCallOutcome := (match p.lastCallOutcome with | some v => some v | none => c.lastCallOutcome)
    updatedAt := now }

/-- Modelled from the spec: updateContact (spec.md section 4.1).  Fields
present in the patch replace the stored value, absent fields are left
untouched; an empty patch returns the unmodified record without bumping
updatedAt; an unknown id reports not-found. -/
def updateContact (db : Db) (now : Nat) (id : Nat) (p : Patch) : Db × Option Contact :=
  match getContact db id with
  | none => (db, none)
  | some c =>
      if p.isEmpty then (db, some c)
      else
        let c' := applyPatch c p now
        ({ db with contacts := db.contacts.map (fun x => if x.id == id then c' else x) },
          some c')

/-- Input assembled by the create route for the store (all fields filled in
by the route with defaults, as routes.js does). -/
structure ContactInput where
  workspaceId : String
  phoneE164 : String
  name : String
  email : String
  company : String
  tags : List String
  notes : String
  source : String
  metadata : List (String × String)
deriving DecidableEq, Repr

/-- Contact freshly inserted by explicit creation or import. -/
def mkNewContact (id now : Nat) (inp : ContactInput) : Contact :=
  { id := id
    workspaceId := inp.workspaceId
    phoneE164 := inp.phoneE164
    name := inp.name
    email := inp.email
    company := inp.company
    tags := inp.tags
    notes := inp.notes
    source := inp.source
    metadata := inp.metadata
    totalCalls := 0
    lastCallAt := none
    lastCallOutcome := none
    createdAt := now
    updatedAt := now }

/-- Modelled from the spec: createContact (spec.md section 4.1).  When the
(workspaceId, phoneE164) pair already exists the input fields replace the
stored ones (authoritative merge); otherwise a new contact is inserted.
Phone-format validation happens in the calling route (routes.js lines
84-87) and is embedded there. -/
def createContact (db : Db) (now : Nat) (inp : ContactInput) : Db × Contact :=
  match getContactByPhone db inp.workspaceId inp.phoneE164 with
  | some c =>
      let c' : Contact :=
        { c with
          name := inp.name
          email := inp.email
          company := inp.company
          tags := inp.tags
          notes := inp.notes
          source := inp.source
          metadata := inp.metadata
          updatedAt := now }
      ({ db with contacts := db.contacts.map (fun x => if x.id == c.id then c' else x) }, c')
  | none =>
      let c := mkNewContact db.nextId now inp
      ({ contacts := db.contacts ++ [c], nextId := db.nextId + 1 }, c)

/-- Modelled from the spec: hard delete of a contact by id. -/
def deleteContact (db : Db) (id : Nat) : Db :=
  { db with contacts := db.contacts.filter (fun c => c.id != id) }

/-- Body of the create-contact request as validated by the zod schema in
routes.js (phoneE164 required, the rest optional). -/
structure CreateBody where
  phoneE164 : String
  name : Option String := none
  email : Option String := none
  company : Option String := none
  tags : Option (List String) := none
  notes : Option String := none
  metadata : Option (List (String × String)) := none
deriving DecidableEq, Repr

/-- Length checks of the zod schema on the create body (routes.js lines
70-78).  The email well-formedness check of the schema is not modelled;
no claim depends on it. -/
def zodCreateOk (b : CreateBody) : Bool :=
  decide (6 ≤ b.phoneE164.length) && decide (b.phoneE164.length ≤ 20) &&
    (match b.name with | some s => decide (s.length ≤ 200) | none => true) &&
    (match b.email with | some s => decide (s.length ≤ 200) | none => true) &&
    (match b.company with | some s => decide (s.length ≤ 200) | none => true) &&
    (match b.notes with | some s => decide (s.length ≤ 5000) | none => true)

/-- Outcome of the create route. -/
inductive CreateResult where
  | badRequest (msg : String)
  | created (c : Contact)
deriving DecidableEq, Repr

/-- Error message of the phone-format rejection in routes.js line 86. -/
def e164ErrorMsg : String := "phoneE164 must be in E.164 format"

/-- Error message of the schema rejection in routes.js line 81. -/
def schemaErrorMsg : String := "Validation failed"

/-- POST /contacts from src/routes.js lines 68-102: zod schema check, then
the trimmed phone is tested against the optional-plus pattern, then the
store createContact runs with defaults filled in and source manual. -/
def createContactRoute (db : Db) (now : Nat) (ws : String) (b : CreateBody) :
    Db × CreateResult :=
  if zodCreateOk b then
    let phone := strTrim b.phoneE164
    if codePhonePattern phone then
      let r := createContact db now
        { workspaceId := ws
          phoneE164 := phone
          name := b.name.getD ""
          email := b.email.getD ""
          company := b.company.getD ""
          tags := b.tags.getD []
          notes := b.notes.getD ""
          source := "manual"
          metadata := b.metadata.getD [] }
      (r.1, CreateResult.created r.2)
    else (db, CreateResult.badRequest e164ErrorMsg)
  else (db, CreateResult.badRequest schemaErrorMsg)

/-- Outcome of the get route. -/
inductive GetResult where
  | notFound
  | found (c : Contact)
deriving DecidableEq, Repr

/-- GET /contacts/:id from src/routes.js lines 20-26: not-found when the id
is unknown or the contact belongs to another workspace. -/
def getContactRoute (db : Db) (ws : String) (id : Nat) : GetResult :=
  match getContact db id with
  | none => GetResult.notFound
  | some c => if c.workspaceId == ws then GetResult.found c else GetResult.notFound

/-- Outcome of the update route. -/
inductive UpdateRouteResult where
  | notFound
  | validationFailed
  | updated (c : Contact)
deriving DecidableEq, Repr

/-- Length checks of the zod schema on the update body (routes.js lines
112-119); the email well-formedness check is not modelled. -/
def zodPatchOk (b : Patch) : Bool :=
  (match b.name with | some s => decide (s.length ≤ 200) | none => true) &&
    (match b.email with | some s => decide (s.length ≤ 200) | none => true) &&
    (match b.company with | some s => decide (s.length ≤ 200) | none => true) &&
    (match b.notes with | some s => decide (s.length ≤ 5000) | none => true)

/-- PUT /contacts/:id from src/routes.js lines 104-135: not-found guard
first (unknown id or foreign workspace), then schema check, then the store
update restricted to the six route-editable fields. -/
def updateContactRoute (db : Db) (now : Nat) (ws : String) (id : Nat) (b : Patch) :
    Db × UpdateRouteResult :=
  match getContact db id with
  | none => (db, UpdateRouteResult.notFound)
  | some c =>
      if c.workspaceId == ws then
        if zodPatchOk b then
          let r := updateContact db now id
            { name := b.name, email := b.email, company := b.company,
              tags := b.tags, notes := b.notes, metadata := b.metadata }
          match r.2 with
          | some c' => (r.1, UpdateRouteResult.updated c')
          | none => (r.1, UpdateRouteResult.notFound)
        else (db, UpdateRouteResult.validationFailed)
      else (db, UpdateRouteResult.notFound)

/-- Outcome of the delete route. -/
inductive DeleteRouteResult where
  | notFound
  | deleted
deriving DecidableEq, Repr

/-- DELETE /contacts/:id from src/routes.js lines 137-147: not-found guard
first, then the hard delete. -/
def deleteContactRoute (db : Db) (ws : String) (id : Nat) : Db × DeleteRouteResult :=
  match getContact db id with
  | none => (db, DeleteRouteResult.notFound)
  | some c =>
      if c.workspaceId == ws then (deleteContact db id, DeleteRouteResult.deleted)
      else (db, DeleteRouteResult.notFound)

/-- Row produced by the CSV parser in the import route. -/
structure ImportRow where
  phoneE164 : String
  name : String
  email : String
  company : String
  tags : List String
deriving DecidableEq, Repr

/-- Read an optional column from a split line: a missing column index or an
index past the end of the line yields the empty string, as the JavaScript
indexing with a default does. -/
def getVal (values : List String) (idx : Option Nat) : String :=
  match idx with
  | some i => values.getD i ""
  | none => ""

/-- One iteration of the CSV data-row loop of src/routes.js lines 175-192:
a row without a phone value is skipped, the phone is stripped of
non-digit, non-plus characters, a row failing the phone pattern is
skipped, and otherwise a row with a plus-normalized phone is collected. -/
def rowStep (phoneIdx : Nat) (nameIdx emailIdx companyIdx tagsIdx : Option Nat)
    (acc : List ImportRow) (line : String) : List ImportRow :=
  let values := (splitField line ',').map strTrim
  if values.length ≤ phoneIdx ∨ values.getD phoneIdx "" = "" then acc
  else
    let phone := cleanPhone (values.getD phoneIdx "")
    if codePhonePattern phone then
      let tagsStr :=
        match tagsIdx with
        | some i => if values.getD i "" = "" then "" else values.getD i ""
        | none => ""
      let tags :=
        if tagsStr = "" then []
        else ((splitField tagsStr ';').map strTrim).filter (fun t => t != "")
      acc ++ [{ phoneE164 := if startsPlus phone then phone else "+" ++ phone
                name := getVal values nameIdx
                email := getVal values emailIdx
                company := getVal values companyIdx
                tags := tags }]
    else acc

/-- Modelled from the spec: bulkCreateContacts (spec.md section 4.1,
bulkImport).  Rows are inserted one by one with do-nothing-on-conflict
semantics: a row whose (workspaceId, phoneE164) already exists is skipped,
and the list of actually inserted contacts is returned. -/
def bulkCreateContacts (db : Db) (now : Nat) (ws : String) :
    List ImportRow → Db × List Contact
  | [] => (db, [])
  | r :: rest =>
      match getContactByPhone db ws r.phoneE164 with
      | some _ => bulkCreateContacts db now ws rest
      | none =>
          let c := mkNewContact db.nextId now
            { workspaceId := ws
              phoneE164 := r.phoneE164
              name := r.name
              email := r.email
              company := r.company
              tags := r.tags
              notes := ""
              source := "import"
              metadata := [] }
          let db' : Db := { contacts := db.contacts ++ [c], nextId := db.nextId + 1 }
          let res := bulkCreateContacts db' now ws rest
          (res.1, c :: res.2)

/-- Outcome of the import route. -/
inductive ImportResult where
  | badRequest (msg : String)
  | imported (contacts : List Contact) (importedCount total : Nat)
deriving DecidableEq, Repr

/-- Error message for an empty CSV body. -/
def missingCsvMsg : String := "Missing CSV data"

/-- Error message for a CSV without a data row. -/
def shortCsvMsg : String := "CSV must have at least a header row and one data row"

/-- Error message for a CSV without a phone column. -/
def noPhoneColMsg : String := "CSV must have a 'phone' or 'phone_e164' column"

/-- Error message when every data row was filtered out. -/
def noValidRowsMsg : String := "No valid rows found in CSV"

/-- POST /contacts/import from src/routes.js lines 149-200: split into
trimmed non-empty lines, locate the phone and optional columns in the
lower-cased header, collect valid rows independently, then insert them with
conflict-skip semantics; the response reports the inserted count and the
count of rows that survived parsing. -/
def importRoute (db : Db) (now : Nat) (ws : String) (csv : String) :
    Db × ImportResult :=
  let csvText := strTrim csv
  if csvText = "" then (db, ImportResult.badRequest missingCsvMsg)
  else
    let lines := ((splitField csvText '\n').map strTrim).filter (fun l => l != "")
    if lines.length < 2 then (db, ImportResult.badRequest shortCsvMsg)
    else
      let headers := (splitField (lines.headD "") ',').map (fun h => lowerStr (strTrim h))
      match headers.findIdx? (fun h => h == "phone" || h == "phone_e164" || h == "phonee164") with
      | none => (db, ImportResult.badRequest noPhoneColMsg)
      | some phoneIdx =>
          let nameIdx := headers.findIdx? (fun h => h == "name")
          let emailIdx := headers.findIdx? (fun h => h == "email")
          let companyIdx := headers.findIdx? (fun h => h == "company")
          let tagsIdx := headers.findIdx? (fun h => h == "tags")
          let rows := (lines.drop 1).foldl (rowStep phoneIdx nameIdx emailIdx companyIdx tagsIdx) []
          if rows.length = 0 then (db, ImportResult.badRequest noValidRowsMsg)
          else
            let res := bulkCreateContacts db now ws rows
            (res.1, ImportResult.imported res.2 res.2.length rows.length)

/-- Call row as read by the backfill route (id is not consulted); the
source column is named to, a reserved word here, hence toPhone. -/
structure CallRec where
  toPhone : String
  outcome : String
  startedAt : Nat
deriving DecidableEq, Repr

/-- Outbound-job row as read by the backfill route. -/
structure JobRec where
  phone : String
  leadName : String
deriving DecidableEq, Repr

/-- JavaScript Map modelled as an association list consulted from the most
recent insertion: set prepends and get takes the first match, which
coincides with the observable get behaviour of Map.set. -/
def mapSet (m : List (String × String)) (k v : String) : List (String × String) :=
  (k, v) :: m

/-- Lookup in the modelled JavaScript Map. -/
def mapGet (m : List (String × String)) (k : String) : Option String :=
  (m.find? (fun e => e.1 == k)).map (fun e => e.2)

/-- One iteration of the name-map construction of src/routes.js lines
226-233: a job with both a phone and a lead name replaces the stored name
when there is none yet, when it is empty, or when it is strictly shorter. -/
def jobStep (m : List (String × String)) (j : JobRec) : List (String × String) :=
  if j.phone != "" && j.leadName != "" then
    match mapGet m j.phone with
    | none => mapSet m j.phone j.leadName
    | some ex =>
        if ex == "" || decide (ex.length < j.leadName.length) then mapSet m j.phone j.leadName
        else m
  else m

/-- Phone-to-name map built from the outbound jobs before the backfill scan. -/
def buildPhoneToName (jobs : List JobRec) : List (String × String) :=
  jobs.foldl jobStep []

/-- Candidate display name the backfill uses for a phone number: the map
entry when present, the empty string otherwise. -/
def candidateName (jobs : List JobRec) (p : String) : String :=
  (mapGet (buildPhoneToName jobs) p).getD ""

/-- Filter applied to every scanned call in both backfill loops (routes.js
lines 236 and 252): a call is processed only when its destination is
non-empty, is not the webtest sentinel, and matches the phone pattern. -/
def validTo (dest : String) : Bool :=
  !(dest == "") && !(dest == "webtest") && codePhonePattern dest

/-- One iteration of the first backfill loop (routes.js lines 235-248):
for a processed call, an existing contact only bumps the updated counter,
and a missing contact is created through the call upsert with the
candidate name and source inbound. -/
def loop1Step (ws : String) (nameMap : List (String × String)) (now : Nat)
    (acc : Db × Nat × Nat) (call : CallRec) : Db × Nat × Nat :=
  if validTo call.toPhone then
    let phone := normPhone call.toPhone
    let name := (mapGet nameMap phone).getD ""
    match getContactByPhone acc.1 ws phone with
    | some _ => (acc.1, acc.2.1, acc.2.2 + 1)
    | none =>
        let r := upsertContactFromCall acc.1 now ws phone name
          (if call.outcome == "in_progress" then "inbound" else "inbound")
        (r.1, acc.2.1 + 1, acc.2.2)
  else acc

/-- One iteration of the second backfill loop (routes.js lines 251-262):
for a processed call whose contact exists, totalCalls is incremented and
lastCallAt and lastCallOutcome are overwritten from this call. -/
def loop2Step (ws : String) (now : Nat) (db : Db) (call : CallRec) : Db :=
  if validTo call.toPhone then
    let phone := normPhone call.toPhone
    match getContactByPhone db ws phone with
    | some contact =>
        (updateContact db now contact.id
          { totalCalls := some (contact.totalCalls + 1)
            lastCallAt := some call.startedAt
            lastCallOutcome := some call.outcome }).1
    | none => db
  else db

/-- First backfill pass over the call list. -/
def runLoop1 (ws : String) (nameMap : List (String × String)) (now : Nat)
    (st : Db × Nat × Nat) (calls : List CallRec) : Db × Nat × Nat :=
  calls.foldl (loop1Step ws nameMap now) st

/-- Second backfill pass over the call list. -/
def runLoop2 (ws : String) (now : Nat) (db : Db) (calls : List CallRec) : Db :=
  calls.foldl (loop2Step ws now) db

/-- POST /contacts/backfill from src/routes.js lines 202-265: build the
name map from the outbound jobs, run the creation pass, then run the
per-call update pass; the counters created and updated are returned. -/
def backfill (db : Db) (now : Nat) (ws : String) (jobs : List JobRec)
    (calls : List CallRec) : Db × Nat × Nat :=
  let st := runLoop1 ws (buildPhoneToName jobs) now (db, 0, 0) calls
  (runLoop2 ws now st.1 calls, st.2.1, st.2.2)

/-- Calls the backfill actually processes for one normalized phone number. -/
def pMatches (p : String) (calls : List CallRec) : List CallRec :=
  calls.filter (fun c => validTo c.toPhone && (normPhone c.toPhone == p))

/-- Jobs that carry a lead name for one phone number. -/
def jobSel (p : String) (jobs : List JobRec) : List JobRec :=
  jobs.filter (fun j => j.phone == p && j.leadName != "")

/-- A find? over a list is the head of the corresponding filter. -/
theorem find?_eq_head?_filter {α : Type} (q : α → Bool) (l : List α) :
    l.find? q = (l.filter q).head? := by
  induction l with
  | nil => rfl
  | cons a t ih =>
      cases hq : q a
      · rw [List.find?_cons_of_neg _ (by simp [hq]), List.filter_cons_of_neg (by simp [hq]), ih]
      · rw [List.find?_cons_of_pos _ hq, List.filter_cons_of_pos hq, List.head?_cons]

/-- Filtering after a map that preserves the predicate commutes with
filtering first. -/
theorem filter_map_congr {α : Type} (q : α → Bool) (f : α → α) (l : List α)
    (hf : ∀ x ∈ l, q (f x) = q x) :
    (l.map f).filter q = (l.filter q).map f := by
  induction l with
  | nil => rfl
  | cons a t ih =>
      have ha := hf a (List.mem_cons_self a t)
      have ht : ∀ x ∈ t, q (f x) = q x := fun x hx => hf x (List.mem_cons_of_mem a hx)
      cases hq : q a
      · rw [List.map_cons, List.filter_cons_of_neg (by simp [ha, hq]),
          List.filter_cons_of_neg (by simp [hq]), ih ht]
      · rw [List.map_cons, List.filter_cons_of_pos (by simp [ha, hq]),
          List.filter_cons_of_pos (by simp [hq]), List.map_cons, ih ht]

/-- Replacing the contact with a given id by one carrying the same id keeps
the list of stored ids unchanged. -/
theorem map_id_replace (l : List Contact) (i : Nat) (c' : Contact) (h : c'.id = i) :
    ((l.map (fun x => if x.id == i then c' else x)).map (fun c => c.id)) =
      l.map (fun c => c.id) := by
  induction l with
  | nil => rfl
  | cons a t ih =>
      by_cases ha : a.id = i
      · simp only [List.map_cons, ih]
        rw [if_pos (by simp [ha]), h, ha]
      · simp only [List.map_cons, ih]
        rw [if_neg (by simp [ha])]

/-- In a well-formed table two stored contacts with the same id coincide. -/
theorem inj_of_wf {db : Db} (hwf : db.wf) {a b : Contact}
    (ha : a ∈ db.contacts) (hb : b ∈ db.contacts) (hid : a.id = b.id) : a = b :=
  List.inj_on_of_nodup_map hwf.2 ha hb hid

/-- Well-formedness only depends on the stored ids and the counter. -/
theorem wf_of_ids_eq {db db' : Db} (hn : db'.nextId = db.nextId)
    (hids : db'.contacts.map (fun c => c.id) = db.contacts.map (fun c => c.id))
    (hwf : db.wf) : db'.wf := by
  unfold Db.wf at *
  rw [hids, hn]
  exact hwf

/-- Appending a contact carrying the fresh id preserves well-formedness. -/
theorem wf_append {db : Db} (hwf : db.wf) (c : Contact) (hc : c.id = db.nextId) :
    (Db.mk (db.contacts ++ [c]) (db.nextId + 1)).wf := by
  obtain ⟨hb, hnd⟩ := hwf
  constructor
  · intro i hi
    simp only [List.map_append, List.map_cons, List.map_nil, List.mem_append,
      List.mem_singleton] at hi
    rcases hi with hi | hi
    · exact Nat.lt_succ_of_lt (hb i hi)
    · subst hi; rw [hc]; exact Nat.lt_succ_self _
  · rw [List.map_append]
    refine List.Nodup.append hnd (List.nodup_singleton _) ?_
    intro i hi hj
    simp only [List.map_cons, List.map_nil, List.mem_singleton] at hj
    subst hj
    have := hb _ hi
    omega

/-- Replacing a stored contact by one with the same id preserves
well-formedness. -/
theorem wf_replace {db : Db} (hwf : db.wf) (i : Nat) (c' : Contact) (hid : c'.id = i) :
    (Db.mk (db.contacts.map (fun x => if x.id == i then c' else x)) db.nextId).wf :=
  @wf_of_ids_eq db (Db.mk (db.contacts.map (fun x => if x.id == i then c' else x)) db.nextId)
    rfl (map_id_replace db.contacts i c' hid) hwf

/-- Locating a stored contact by its id in a well-formed table returns that
contact. -/
theorem find?_id_of_mem (l : List Contact) (hnd : (l.map (fun c => c.id)).Nodup)
    {c : Contact} (hm : c ∈ l) : l.find? (fun x => x.id == c.id) = some c := by
  induction l with
  | nil => cases hm
  | cons a t ih =>
      rcases List.mem_cons.mp hm with rfl | hmt
      · exact List.find?_cons_of_pos _ (by simp)
      · rw [List.map_cons, List.nodup_cons] at hnd
        have hane : ¬ a.id = c.id := by
          intro he
          have hmem : c.id ∈ t.map (fun x => x.id) := List.mem_map_of_mem _ hmt
          exact hnd.1 (by rw [he]; exact hmem)
        rw [List.find?_cons_of_neg _ (by simp [hane]), ih hnd.2 hmt]

/-- Projections of the update branch of the call upsert. -/
theorem upsertBump_fields (c : Contact) (now : Nat) (nm : String) :
    (upsertBump c now nm).id = c.id ∧
    (upsertBump c now nm).workspaceId = c.workspaceId ∧
    (upsertBump c now nm).phoneE164 = c.phoneE164 ∧
    (upsertBump c now nm).totalCalls = c.totalCalls + 1 ∧
    (upsertBump c now nm).email = c.email ∧
    (upsertBump c now nm).company = c.company ∧
    (upsertBump c now nm).tags = c.tags ∧
    (upsertBump c now nm).notes = c.notes :=
  ⟨rfl, rfl, rfl, rfl, rfl, rfl, rfl, rfl⟩

/-- Projections of a patch application that the filter lemmas rely on. -/
theorem applyPatch_fields (c : Contact) (pt : Patch) (now : Nat) :
    (applyPatch c pt now).id = c.id ∧
    (applyPatch c pt now).workspaceId = c.workspaceId ∧
    (applyPatch c pt now).phoneE164 = c.phoneE164 :=
  ⟨rfl, rfl, rfl⟩

/-- Replacing one stored contact by a contact with the same id, workspace
and phone commutes with the pair filter, in a well-formed table. -/
theorem pairFilter_replace (ws p : String) {db : Db} (hwf : db.wf)
    {c : Contact} (hm : c ∈ db.contacts) (c' : Contact)
    (hid : c'.id = c.id) (hws : c'.workspaceId = c.workspaceId)
    (hph : c'.phoneE164 = c.phoneE164) :
    (db.contacts.map (fun x => if x.id == c.id then c' else x)).filter (pairPred ws p) =
      (db.contacts.filter (pairPred ws p)).map (fun x => if x.id == c.id then c' else x) := by
  refine filter_map_congr _ _ _ ?_
  intro x hx
  by_cases hxi : x.id = c.id
  · have hxc : x = c := inj_of_wf hwf hx hm hxi
    subst hxc
    rw [if_pos (by simp)]
    simp [pairPred, hws, hph]
  · rw [if_neg (by simp [hxi])]

/-- The lookup by pair is the head of the pair filter. -/
theorem getContactByPhone_eq_head? (db : Db) (ws p : String) :
    getContactByPhone db ws p = (pairFilter ws p db).head? :=
  find?_eq_head?_filter _ _

/-- A pair with no stored contact has an empty pair filter. -/
theorem pairFilter_nil_of_none {db : Db} {ws p : String}
    (h : getContactByPhone db ws p = none) : pairFilter ws p db = [] := by
  rw [getContactByPhone_eq_head?] at h
  exact List.head?_eq_none_iff.mp h

/-- State reached by the call upsert when the pair is new. -/
theorem upsert_none_fst {db : Db} {ws p : String} (now : Nat) (nm src : String)
    (h : getContactByPhone db ws p = none) :
    (upsertContactFromCall db now ws p nm src).1 =
      Db.mk (db.contacts ++ [mkCallContact db.nextId now ws p nm src]) (db.nextId + 1) := by
  unfold upsertContactFromCall
  rw [h]

/-- Contact returned by the call upsert when the pair is new. -/
theorem upsert_none_snd {db : Db} {ws p : String} (now : Nat) (nm src : String)
    (h : getContactByPhone db ws p = none) :
    (upsertContactFromCall db now ws p nm src).2 =
      mkCallContact db.nextId now ws p nm src := by
  unfold upsertContactFromCall
  rw [h]

/-- State reached by the call upsert when a contact exists for the pair. -/
theorem upsert_some_fst {db : Db} {ws p : String} {c : Contact} (now : Nat) (nm src : String)
    (h : getContactByPhone db ws p = some c) :
    (upsertContactFromCall db now ws p nm src).1 =
      Db.mk (db.contacts.map (fun x => if x.id == c.id then upsertBump c now nm else x))
        db.nextId := by
  unfold upsertContactFromCall
  rw [h]

/-- Contact returned by the call upsert when a contact exists for the pair. -/
theorem upsert_some_snd {db : Db} {ws p : String} {c : Contact} (now : Nat) (nm src : String)
    (h : getContactByPhone db ws p = some c) :
    (upsertContactFromCall db now ws p nm src).2 = upsertBump c now nm := by
  unfold upsertContactFromCall
  rw [h]

/-- Appending a contact for a different pair leaves the pair filter alone. -/
theorem pairFilter_append_single_neg (db : Db) (ws p : String) (c : Contact) (n : Nat)
    (h : pairPred ws p c = false) :
    pairFilter ws p (Db.mk (db.contacts ++ [c]) n) = pairFilter ws p db := by
  unfold pairFilter
  rw [List.filter_append, List.filter_cons_of_neg (by simp [h]), List.filter_nil,
    List.append_nil]

/-- Appending a contact for the observed pair extends the pair filter. -/
theorem pairFilter_append_single_pos (db : Db) (ws p : String) (c : Contact) (n : Nat)
    (h : pairPred ws p c = true) :
    pairFilter ws p (Db.mk (db.contacts ++ [c]) n) = pairFilter ws p db ++ [c] := by
  unfold pairFilter
  rw [List.filter_append, List.filter_cons_of_pos h, List.filter_nil]

/-- The freshly created call contact satisfies its own pair predicate. -/
theorem pairPred_mkCallContact (ws p : String) (id now : Nat) (nm src : String) :
    pairPred ws p (mkCallContact id now ws p nm src) = true := by
  simp [pairPred, mkCallContact]

/-- A new-pair call upsert preserves well-formedness. -/
theorem upsert_none_wf {db : Db} (hwf : db.wf) {ws p : String} (now : Nat) (nm src : String)
    (h : getContactByPhone db ws p = none) :
    (upsertContactFromCall db now ws p nm src).1.wf := by
  rw [upsert_none_fst now nm src h]
  exact wf_append hwf _ rfl

/-- Pair filter and well-formedness after an existing-pair call upsert. -/
theorem upsert_some_pairFilter {db : Db} (hwf : db.wf) {ws' q : String} {c : Contact}
    (h : getContactByPhone db ws' q = some c) (ws p : String) (now : Nat) (nm src : String) :
    pairFilter ws p (upsertContactFromCall db now ws' q nm src).1 =
      (pairFilter ws p db).map (fun x => if x.id == c.id then upsertBump c now nm else x) ∧
    (upsertContactFromCall db now ws' q nm src).1.wf := by
  have hm : c ∈ db.contacts := List.mem_of_find?_eq_some h
  rw [upsert_some_fst now nm src h]
  constructor
  · exact pairFilter_replace ws p hwf hm _ rfl rfl rfl
  · exact wf_replace hwf c.id _ rfl

/-- Equation for a non-empty-patch update of a stored contact. -/
theorem updateContact_of_mem {db : Db} (hwf : db.wf) {c : Contact} (hm : c ∈ db.contacts)
    (now : Nat) (pt : Patch) (hne : pt.isEmpty = false) :
    updateContact db now c.id pt =
      (Db.mk (db.contacts.map (fun x => if x.id == c.id then applyPatch c pt now else x))
        db.nextId, some (applyPatch c pt now)) := by
  unfold updateContact
  rw [show getContact db c.id = some c from find?_id_of_mem _ hwf.2 hm, hne]
  simp

/-- Pair filter and well-formedness after a non-empty-patch update. -/
theorem updateContact_pairFilter {db : Db} (hwf : db.wf) {c : Contact} (hm : c ∈ db.contacts)
    (ws p : String) (now : Nat) (pt : Patch) (hne : pt.isEmpty = false) :
    pairFilter ws p (updateContact db now c.id pt).1 =
      (pairFilter ws p db).map (fun x => if x.id == c.id then applyPatch c pt now else x) ∧
    (updateContact db now c.id pt).1.wf := by
  rw [updateContact_of_mem hwf hm now pt hne]
  constructor
  · exact pairFilter_replace ws p hwf hm _ rfl rfl rfl
  · exact wf_replace hwf c.id _ rfl

/-- Running the call upsert twice on a fresh pair: after the first run the
pair holds one contact with one counted call, after the second run it still
holds one contact, now with two counted calls, and the second run returns
that contact. -/
theorem upsert_twice_char (db : Db) (now1 now2 : Nat) (ws p n1 s1 n2 s2 : String)
    (hwf : db.wf) (hnone : getContactByPhone db ws p = none) :
    (pairFilter ws p (upsertContactFromCall db now1 ws p n1 s1).1).map
        (fun c => c.totalCalls) = [1] ∧
    (pairFilter ws p
        (upsertContactFromCall (upsertContactFromCall db now1 ws p n1 s1).1
          now2 ws p n2 s2).1).map (fun c => c.totalCalls) = [2] ∧
    (upsertContactFromCall (upsertContactFromCall db now1 ws p n1 s1).1
      now2 ws p n2 s2).2.totalCalls = 2 := by
  have hpf0 : pairFilter ws p db = [] := pairFilter_nil_of_none hnone
  have hpf1 : pairFilter ws p (upsertContactFromCall db now1 ws p n1 s1).1 =
      [mkCallContact db.nextId now1 ws p n1 s1] := by
    rw [upsert_none_fst now1 n1 s1 hnone,
      pairFilter_append_single_pos db ws p _ _ (pairPred_mkCallContact ws p _ now1 n1 s1),
      hpf0, List.nil_append]
  have hwf1 : (upsertContactFromCall db now1 ws p n1 s1).1.wf :=
    upsert_none_wf hwf now1 n1 s1 hnone
  have hsome : getContactByPhone (upsertContactFromCall db now1 ws p n1 s1).1 ws p =
      some (mkCallContact db.nextId now1 ws p n1 s1) := by
    rw [getContactByPhone_eq_head?, hpf1]
    rfl
  have h2 := upsert_some_pairFilter hwf1 hsome ws p now2 n2 s2
  refine ⟨by rw [hpf1]; simp [mkCallContact], ?_, ?_⟩
  · rw [h2.1, hpf1]
    simp [upsertBump, mkCallContact]
  · rw [upsert_some_snd now2 n2 s2 hsome]
    simp [upsertBump, mkCallContact]

/-- Empty table fixture used by the witnesses. -/
def dbEmpty : Db := { contacts := [], nextId := 0 }

/-- Fixture contact stored in workspace w1. -/
def contactW1 : Contact :=
  { id := 0
    workspaceId := "w1"
    phoneE164 := "+14155550123"
    name := "Alice"
    email := "a@x.com"
    company := "Acme"
    tags := ["vip"]
    notes := "note"
    source := "manual"
    metadata := []
    totalCalls := 3
    lastCallAt := some 5
    lastCallOutcome := some "completed"
    createdAt := 1
    updatedAt := 2 }

/-- Table fixture holding the single contact above. -/
def dbOne : Db := { contacts := [contactW1], nextId := 1 }

/-- C1: for every valid E.164 phone number and workspace, calling
upsertContactFromCall twice in sequence on a (workspace, phone) pair with
no stored contact leaves exactly one stored contact for that pair; the
first call creates it with totalCalls 1 and the second run leaves it with
totalCalls 2. -/
theorem upsert_from_call_twice_single_contact (db : Db) (now1 now2 : Nat)
    (ws p n1 s1 n2 s2 : String)
    (hvalid : specPhonePattern p = true) (hwf : db.wf)
    (hnone : getContactByPhone db ws p = none) :
    (pairFilter ws p (upsertContactFromCall db now1 ws p n1 s1).1).map
        (fun c => c.totalCalls) = [1] ∧
    (pairFilter ws p
        (upsertContactFromCall (upsertContactFromCall db now1 ws p n1 s1).1
          now2 ws p n2 s2).1).map (fun c => c.totalCalls) = [2] :=
  ⟨(upsert_twice_char db now1 now2 ws p n1 s1 n2 s2 hwf hnone).1,
    (upsert_twice_char db now1 now2 ws p n1 s1 n2 s2 hwf hnone).2.1⟩

/-- Witness for C1 at a concrete fresh pair. -/
theorem upsert_from_call_twice_single_contact_witness :
    specPhonePattern "+14155550123" = true ∧ Db.wf dbEmpty ∧
    getContactByPhone dbEmpty "w1" "+14155550123" = none ∧
    ((pairFilter "w1" "+14155550123"
        (upsertContactFromCall dbEmpty 5 "w1" "+14155550123" "Alice" "inbound").1).map
          (fun c => c.totalCalls) = [1] ∧
      (pairFilter "w1" "+14155550123"
        (upsertContactFromCall
          (upsertContactFromCall dbEmpty 5 "w1" "+14155550123" "Alice" "inbound").1
          6 "w1" "+14155550123" "Bob" "outbound").1).map (fun c => c.totalCalls) = [2]) :=
  ⟨by decide, by decide, by decide,
    upsert_from_call_twice_single_contact dbEmpty 5 6 "w1" "+14155550123" "Alice" "inbound"
      "Bob" "outbound" (by decide) (by decide) (by decide)⟩

/-- C2: for every existing contact, upsertContactFromCall sets the stored
name to the candidate only when the existing name is empty and the
candidate is non-empty, never replaces a non-empty existing name, and
leaves email, company, tags and notes unchanged; the returned contact is
exactly what is stored in place of the old one. -/
theorem upsert_from_call_existing_contact_policy (db : Db) (now : Nat)
    (ws p cand src : String) (c : Contact)
    (hex : getContactByPhone db ws p = some c) :
    (c.name ≠ "" → (upsertContactFromCall db now ws p cand src).2.name = c.name) ∧
    (c.name = "" → cand ≠ "" → (upsertContactFromCall db now ws p cand src).2.name = cand) ∧
    (cand = "" → (upsertContactFromCall db now ws p cand src).2.name = c.name) ∧
    (upsertContactFromCall db now ws p cand src).2.email = c.email ∧
    (upsertContactFromCall db now ws p cand src).2.company = c.company ∧
    (upsertContactFromCall db now ws p cand src).2.tags = c.tags ∧
    (upsertContactFromCall db now ws p cand src).2.notes = c.notes ∧
    (upsertContactFromCall db now ws p cand src).2.totalCalls = c.totalCalls + 1 ∧
    (upsertContactFromCall db now ws p cand src).1.contacts =
      db.contacts.map
        (fun x => if x.id == c.id then (upsertContactFromCall db now ws p cand src).2 else x) := by
  have hsnd := upsert_some_snd now cand src hex
  have hfst := upsert_some_fst now cand src hex
  rw [hsnd, hfst]
  refine ⟨?_, ?_, ?_, rfl, rfl, rfl, rfl, rfl, rfl⟩
  · intro h
    simp [upsertBump, h]
  · intro h hc
    simp [upsertBump, h, hc]
  · intro h
    simp [upsertBump, h]

/-- Witness for C2 at the stored fixture contact. -/
theorem upsert_from_call_existing_contact_policy_witness :
    getContactByPhone dbOne "w1" "+14155550123" = some contactW1 ∧
    ((contactW1.name ≠ "" →
        (upsertContactFromCall dbOne 9 "w1" "+14155550123" "Mallory" "inbound").2.name =
          contactW1.name) ∧
      (contactW1.name = "" → "Mallory" ≠ "" →
        (upsertContactFromCall dbOne 9 "w1" "+14155550123" "Mallory" "inbound").2.name =
          "Mallory") ∧
      ("Mallory" = "" →
        (upsertContactFromCall dbOne 9 "w1" "+14155550123" "Mallory" "inbound").2.name =
          contactW1.name) ∧
      (upsertContactFromCall dbOne 9 "w1" "+14155550123" "Mallory" "inbound").2.email =
        contactW1.email ∧
      (upsertContactFromCall dbOne 9 "w1" "+14155550123" "Mallory" "inbound").2.company =
        contactW1.company ∧
      (upsertContactFromCall dbOne 9 "w1" "+14155550123" "Mallory" "inbound").2.tags =
        contactW1.tags ∧
      (upsertContactFromCall dbOne 9 "w1" "+14155550123" "Mallory" "inbound").2.notes =
        contactW1.notes ∧
      (upsertContactFromCall dbOne 9 "w1" "+14155550123" "Mallory" "inbound").2.totalCalls =
        contactW1.totalCalls + 1 ∧
      (upsertContactFromCall dbOne 9 "w1" "+14155550123" "Mallory" "inbound").1.contacts =
        dbOne.contacts.map
          (fun x => if x.id == contactW1.id then
            (upsertContactFromCall dbOne 9 "w1" "+14155550123" "Mallory" "inbound").2 else x)) :=
  ⟨by decide,
    upsert_from_call_existing_contact_policy dbOne 9 "w1" "+14155550123" "Mallory" "inbound"
      contactW1 (by decide)⟩

/-- C3: two concurrent call upserts for the same brand-new pair, modelled
as the two possible orders of the two atomic upsert steps, never leave two
contact rows: in both orders exactly one row remains for the pair and the
request that hits the conflict falls into the update branch, returning the
merged contact with totalCalls 2 instead of raising an error. -/
theorem concurrent_upsert_single_row (db : Db) (now1 now2 : Nat)
    (ws p n1 s1 n2 s2 : String)
    (hwf : db.wf) (hnone : getContactByPhone db ws p = none) :
    (pairFilter ws p
        (upsertContactFromCall (upsertContactFromCall db now1 ws p n1 s1).1
          now2 ws p n2 s2).1).length = 1 ∧
    (upsertContactFromCall (upsertContactFromCall db now1 ws p n1 s1).1
        now2 ws p n2 s2).2.totalCalls = 2 ∧
    (pairFilter ws p
        (upsertContactFromCall (upsertContactFromCall db now2 ws p n2 s2).1
          now1 ws p n1 s1).1).length = 1 ∧
    (upsertContactFromCall (upsertContactFromCall db now2 ws p n2 s2).1
        now1 ws p n1 s1).2.totalCalls = 2 := by
  have hA := upsert_twice_char db now1 now2 ws p n1 s1 n2 s2 hwf hnone
  have hB := upsert_twice_char db now2 now1 ws p n2 s2 n1 s1 hwf hnone
  refine ⟨?_, hA.2.2, ?_, hB.2.2⟩
  · have h := congrArg List.length hA.2.1
    simpa using h
  · have h := congrArg List.length hB.2.1
    simpa using h

/-- Witness for C3 at a concrete fresh pair. -/
theorem concurrent_upsert_single_row_witness :
    Db.wf dbEmpty ∧ getContactByPhone dbEmpty "w1" "+4915112345678" = none ∧
    ((pairFilter "w1" "+4915112345678"
        (upsertContactFromCall (upsertContactFromCall dbEmpty 5 "w1" "+4915112345678" "A" "inbound").1
          6 "w1" "+4915112345678" "B" "inbound").1).length = 1 ∧
      (upsertContactFromCall (upsertContactFromCall dbEmpty 5 "w1" "+4915112345678" "A" "inbound").1
          6 "w1" "+4915112345678" "B" "inbound").2.totalCalls = 2 ∧
      (pairFilter "w1" "+4915112345678"
        (upsertContactFromCall (upsertContactFromCall dbEmpty 6 "w1" "+4915112345678" "B" "inbound").1
          5 "w1" "+4915112345678" "A" "inbound").1).length = 1 ∧
      (upsertContactFromCall (upsertContactFromCall dbEmpty 6 "w1" "+4915112345678" "B" "inbound").1
          5 "w1" "+4915112345678" "A" "inbound").2.totalCalls = 2) :=
  ⟨by decide, by decide,
    concurrent_upsert_single_row dbEmpty 5 6 "w1" "+4915112345678" "A" "inbound" "B" "inbound"
      (by decide) (by decide)⟩

/-- C4 counterexample: the claim says the create operation rejects every
phone value not matching the mandatory-plus pattern, yet the plus-less
value 14155550123 fails that pattern and the route accepts it, creating
the contact. -/
theorem create_contact_optional_plus_accepted :
    specPhonePattern "14155550123" = false ∧
    (createContactRoute dbEmpty 0 "w1" { phoneE164 := "14155550123" }).2 =
      CreateResult.created
        { id := 0
          workspaceId := "w1"
          phoneE164 := "14155550123"
          name := ""
          email := ""
          company := ""
          tags := []
          notes := ""
          source := "manual"
          metadata := []
          totalCalls := 0
          lastCallAt := none
          lastCallOutcome := none
          createdAt := 0
          updatedAt := 0 } := by
  constructor
  · decide
  · decide

/-- C4 as amended: the create route validates the trimmed phoneE164 against
the optional-plus pattern of routes.js line 85, and, whenever the schema
check passes, answers with the E.164 validation error exactly when the
trimmed phone fails that pattern. -/
theorem create_contact_validation_pattern (db : Db) (now : Nat) (ws : String)
    (b : CreateBody) (hschema : zodCreateOk b = true) :
    ((createContactRoute db now ws b).2 = CreateResult.badRequest e164ErrorMsg) ↔
      codePhonePattern (strTrim b.phoneE164) = false := by
  cases hpat : codePhonePattern (strTrim b.phoneE164)
  · simp [createContactRoute, hschema, hpat]
  · simp [createContactRoute, hschema, hpat]

/-- Witness for the amended C4 at a schema-passing body with an invalid
phone. -/
theorem create_contact_validation_pattern_witness :
    zodCreateOk { phoneE164 := "0001234" } = true ∧
    (((createContactRoute dbEmpty 0 "w1" { phoneE164 := "0001234" }).2 =
        CreateResult.badRequest e164ErrorMsg) ↔
      codePhonePattern (strTrim ("0001234" : String)) = false) :=
  ⟨by decide,
    create_contact_validation_pattern dbEmpty 0 "w1" { phoneE164 := "0001234" } (by decide)⟩

/-- C6: updating an existing contact with the empty patch returns the
stored record unchanged, leaves the table untouched (hence updatedAt does
not advance) and succeeds rather than erroring. -/
theorem update_contact_empty_patch_noop (db : Db) (now : Nat) (id : Nat) (c : Contact)
    (hc : getContact db id = some c) :
    updateContact db now id emptyPatch = (db, some c) := by
  unfold updateContact
  rw [hc]
  rfl

/-- Witness for C6 at the stored fixture contact. -/
theorem update_contact_empty_patch_noop_witness :
    getContact dbOne 0 = some contactW1 ∧
    updateContact dbOne 9 0 emptyPatch = (dbOne, some contactW1) :=
  ⟨by decide, update_contact_empty_patch_noop dbOne 9 0 contactW1 (by decide)⟩

/-- C9: when the id is unknown, or the stored contact belongs to another
workspace, the get, update and delete routes all answer not-found, and in
the update and delete cases the table is returned unchanged. -/
theorem contact_routes_not_found_isolation (db : Db) (now : Nat) (ws : String)
    (id : Nat) (b : Patch)
    (h : getContact db id = none ∨ ∃ c, getContact db id = some c ∧ c.workspaceId ≠ ws) :
    getContactRoute db ws id = GetResult.notFound ∧
    updateContactRoute db now ws id b = (db, UpdateRouteResult.notFound) ∧
    deleteContactRoute db ws id = (db, DeleteRouteResult.notFound) := by
  rcases h with hnone | ⟨c, hc, hne⟩
  · unfold getContactRoute updateContactRoute deleteContactRoute
    rw [hnone]
    exact ⟨rfl, rfl, rfl⟩
  · unfold getContactRoute updateContactRoute deleteContactRoute
    rw [hc]
    have hb : (c.workspaceId == ws) = false := by simp [hne]
    simp [hb]

/-- Witness for C9: the fixture contact lives in workspace w1 while the
request comes from workspace w2. -/
theorem contact_routes_not_found_isolation_witness :
    (getContact dbOne 0 = none ∨
      ∃ c, getContact dbOne 0 = some c ∧ c.workspaceId ≠ "w2") ∧
    (getContactRoute dbOne "w2" 0 = GetResult.notFound ∧
      updateContactRoute dbOne 9 "w2" 0 emptyPatch = (dbOne, UpdateRouteResult.notFound) ∧
      deleteContactRoute dbOne "w2" 0 = (dbOne, DeleteRouteResult.notFound)) :=
  ⟨Or.inr ⟨contactW1, by decide, by decide⟩,
    contact_routes_not_found_isolation dbOne 9 "w2" 0 emptyPatch
      (Or.inr ⟨contactW1, by decide, by decide⟩)⟩

/-- Contact created by the concrete CSV import example. -/
def importedAlice : Contact :=
  { id := 0
    workspaceId := "w1"
    phoneE164 := "+14155550123"
    name := "Alice"
    email := ""
    company := ""
    tags := []
    notes := ""
    source := "import"
    metadata := []
    totalCalls := 0
    lastCallAt := none
    lastCallOutcome := none
    createdAt := 7
    updatedAt := 7 }

/-- C5: every CSV data row is handled independently; a row whose phone,
after stripping non-digit and non-plus characters, fails the phone pattern
is skipped without affecting the rest of the batch, and the concrete
two-row example creates exactly the Alice contact and reports one imported
row out of a total of one surviving row. -/
theorem csv_import_skips_invalid_rows :
    (∀ (phoneIdx : Nat) (ni ei ci ti : Option Nat) (acc : List ImportRow) (line : String),
      codePhonePattern
        (cleanPhone (((splitField line ',').map strTrim).getD phoneIdx "")) = false →
      rowStep phoneIdx ni ei ci ti acc line = acc) ∧
    importRoute dbEmpty 7 "w1" "phone,name\n+14155550123,Alice\nnotaphone,Bob\n" =
      (Db.mk [importedAlice] 1, ImportResult.imported [importedAlice] 1 1) := by
  constructor
  · intro phoneIdx ni ei ci ti acc line hfail
    simp only [rowStep]
    by_cases hskip : (((splitField line ',').map strTrim).length ≤ phoneIdx ∨
        ((splitField line ',').map strTrim).getD phoneIdx "" = "")
    · rw [if_pos hskip]
    · rw [if_neg hskip, if_neg (by rw [hfail]; exact Bool.false_ne_true)]
  · decide

/-- Witness for C5: the invalid data row of the example leaves the collected
rows unchanged. -/
theorem csv_import_skips_invalid_rows_witness :
    codePhonePattern
      (cleanPhone (((splitField "notaphone,Bob" ',').map strTrim).getD 0 "")) = false ∧
    rowStep 0 (some 1) none none none [] "notaphone,Bob" = [] :=
  ⟨by decide,
    csv_import_skips_invalid_rows.1 0 (some 1) none none none [] "notaphone,Bob" (by decide)⟩

/-- A pair filter equal to a singleton puts that contact in the table. -/
theorem mem_contacts_of_pairFilter {db : Db} {ws p : String} {c : Contact}
    (hpf : pairFilter ws p db = [c]) : c ∈ db.contacts := by
  have hm : c ∈ pairFilter ws p db := by
    rw [hpf]
    exact List.mem_singleton_self c
  exact List.mem_of_mem_filter hm

/-- A pair filter equal to a singleton certifies the pair predicate. -/
theorem pairPred_of_pairFilter {db : Db} {ws p : String} {c : Contact}
    (hpf : pairFilter ws p db = [c]) : pairPred ws p c = true := by
  have hm : c ∈ pairFilter ws p db := by
    rw [hpf]
    exact List.mem_singleton_self c
  exact List.of_mem_filter hm

/-- A skipped call leaves the creation pass state unchanged. -/
theorem loop1Step_invalid {call : CallRec} (hv : validTo call.toPhone = false)
    (ws : String) (nameMap : List (String × String)) (now : Nat) (acc : Db × Nat × Nat) :
    loop1Step ws nameMap now acc call = acc := by
  simp [loop1Step, hv]

/-- A processed call with an existing contact only bumps the updated counter. -/
theorem loop1Step_some {call : CallRec} (hv : validTo call.toPhone = true)
    {ws : String} {acc : Db × Nat × Nat} {cq : Contact}
    (nameMap : List (String × String)) (now : Nat)
    (hg : getContactByPhone acc.1 ws (normPhone call.toPhone) = some cq) :
    loop1Step ws nameMap now acc call = (acc.1, acc.2.1, acc.2.2 + 1) := by
  simp [loop1Step, hv, hg]

/-- A processed call without a contact creates one through the call upsert. -/
theorem loop1Step_none {call : CallRec} (hv : validTo call.toPhone = true)
    {ws : String} {acc : Db × Nat × Nat}
    (nameMap : List (String × String)) (now : Nat)
    (hg : getContactByPhone acc.1 ws (normPhone call.toPhone) = none) :
    loop1Step ws nameMap now acc call =
      ((upsertContactFromCall acc.1 now ws (normPhone call.toPhone)
          ((mapGet nameMap (normPhone call.toPhone)).getD "")
          (if call.outcome == "in_progress" then "inbound" else "inbound")).1,
        acc.2.1 + 1, acc.2.2) := by
  simp [loop1Step, hv, hg]

/-- A skipped call leaves the update pass state unchanged. -/
theorem loop2Step_invalid {call : CallRec} (hv : validTo call.toPhone = false)
    (ws : String) (now : Nat) (db : Db) : loop2Step ws now db call = db := by
  simp [loop2Step, hv]

/-- A processed call without a contact leaves the update pass state
unchanged. -/
theorem loop2Step_none {call : CallRec} (hv : validTo call.toPhone = true)
    {ws : String} {db : Db} (now : Nat)
    (hg : getContactByPhone db ws (normPhone call.toPhone) = none) :
    loop2Step ws now db call = db := by
  simp [loop2Step, hv, hg]

/-- A processed call with a contact updates it: totalCalls is incremented
and lastCallAt and lastCallOutcome are overwritten from this call. -/
theorem loop2Step_some {call : CallRec} (hv : validTo call.toPhone = true)
    {ws : String} {db : Db} {cq : Contact} (now : Nat)
    (hg : getContactByPhone db ws (normPhone call.toPhone) = some cq) :
    loop2Step ws now db call =
      (updateContact db now cq.id
        { totalCalls := some (cq.totalCalls + 1)
          lastCallAt := some call.startedAt
          lastCallOutcome := some call.outcome }).1 := by
  simp [loop2Step, hv, hg]

/-- Invariant of the second backfill pass: the single stored contact for
one pair accumulates one totalCalls increment per matching call, and its
lastCallAt and lastCallOutcome come from the last matching call processed,
in iteration order. -/
theorem runLoop2_char (ws p : String) (now : Nat) (calls : List CallRec) :
    ∀ (db : Db) (c : Contact), db.wf → pairFilter ws p db = [c] →
      ∃ c', pairFilter ws p (runLoop2 ws now db calls) = [c'] ∧
        (runLoop2 ws now db calls).wf ∧
        c'.totalCalls = c.totalCalls + (pMatches p calls).length ∧
        c'.lastCallAt = (match (pMatches p calls).getLast? with
          | some m => some m.startedAt
          | none => c.lastCallAt) ∧
        c'.lastCallOutcome = (match (pMatches p calls).getLast? with
          | some m => some m.outcome
          | none => c.lastCallOutcome) := by
  induction calls with
  | nil =>
      intro db c hwf hpf
      exact ⟨c, hpf, hwf, by simp [pMatches], by simp [pMatches], by simp [pMatches]⟩
  | cons call rest ih =>
      intro db c hwf hpf
      have hrun : runLoop2 ws now db (call :: rest) =
          runLoop2 ws now (loop2Step ws now db call) rest := rfl
      cases hv : validTo call.toPhone with
      | false =>
          have hstep : loop2Step ws now db call = db := loop2Step_invalid hv ws now db
          have hm : pMatches p (call :: rest) = pMatches p rest := by
            unfold pMatches
            rw [List.filter_cons_of_neg (by simp [hv])]
          rw [hrun, hstep, hm]
          exact ih db c hwf hpf
      | true =>
          cases hq : (normPhone call.toPhone == p) with
          | false =>
              have hm : pMatches p (call :: rest) = pMatches p rest := by
                unfold pMatches
                rw [List.filter_cons_of_neg (by simp [hv, hq])]
              cases hg : getContactByPhone db ws (normPhone call.toPhone) with
              | none =>
                  rw [hrun, loop2Step_none hv now hg, hm]
                  exact ih db c hwf hpf
              | some cq =>
                  have hmq : cq ∈ db.contacts := List.mem_of_find?_eq_some hg
                  have hppq : pairPred ws (normPhone call.toPhone) cq = true :=
                    List.find?_some hg
                  have hud := updateContact_pairFilter hwf hmq ws p now
                    { totalCalls := some (cq.totalCalls + 1)
                      lastCallAt := some call.startedAt
                      lastCallOutcome := some call.outcome } rfl
                  have hcc : c ∈ db.contacts := mem_contacts_of_pairFilter hpf
                  have hcp : pairPred ws p c = true := pairPred_of_pairFilter hpf
                  have hidne : ¬ c.id = cq.id := by
                    intro he
                    have hceq : c = cq := inj_of_wf hwf hcc hmq he
                    have h1 : c.phoneE164 = p := by
                      simp [pairPred] at hcp
                      exact hcp.2
                    have h2 : cq.phoneE164 = normPhone call.toPhone := by
                      simp [pairPred] at hppq
                      exact hppq.2
                    simp at hq
                    rw [hceq, h2] at h1
                    exact hq h1
                  have hpf' : pairFilter ws p (loop2Step ws now db call) = [c] := by
                    rw [loop2Step_some hv now hg, hud.1, hpf, List.map_cons, List.map_nil]
                    rw [if_neg (by simp [hidne])]
                  have hwf' : (loop2Step ws now db call).wf := by
                    rw [loop2Step_some hv now hg]
                    exact hud.2
                  rw [hrun, hm]
                  exact ih _ c hwf' hpf'
          | true =>
              have hqeq : normPhone call.toPhone = p := by simpa using hq
              have hg : getContactByPhone db ws (normPhone call.toPhone) = some c := by
                rw [hqeq, getContactByPhone_eq_head?, hpf]
                rfl
              have hcc : c ∈ db.contacts := mem_contacts_of_pairFilter hpf
              have hud := updateContact_pairFilter hwf hcc ws p now
                { totalCalls := some (c.totalCalls + 1)
                  lastCallAt := some call.startedAt
                  lastCallOutcome := some call.outcome } rfl
              have hpf' : pairFilter ws p (loop2Step ws now db call) =
                  [applyPatch c
                    { totalCalls := some (c.totalCalls + 1)
                      lastCallAt := some call.startedAt
                      lastCallOutcome := some call.outcome } now] := by
                rw [loop2Step_some hv now hg, hud.1, hpf, List.map_cons, List.map_nil]
                rw [if_pos (by simp)]
              have hwf' : (loop2Step ws now db call).wf := by
                rw [loop2Step_some hv now hg]
                exact hud.2
              have hm : pMatches p (call :: rest) = call :: pMatches p rest := by
                unfold pMatches
                rw [List.filter_cons_of_pos (by simp [hv, hq])]
              obtain ⟨c', hpf2, hwf2, htc, hla, hlo⟩ := ih (loop2Step ws now db call) _ hwf' hpf'
              refine ⟨c', ?_, ?_, ?_, ?_, ?_⟩
              · rw [hrun]
                exact hpf2
              · rw [hrun]
                exact hwf2
              · rw [hm, List.length_cons]
                rw [htc]
                have hac : (applyPatch c
                    { totalCalls := some (c.totalCalls + 1)
                      lastCallAt := some call.startedAt
                      lastCallOutcome := some call.outcome } now).totalCalls =
                    c.totalCalls + 1 := rfl
                rw [hac]
                omega
              · rw [hm]
                cases hr : pMatches p rest with
                | nil =>
                    rw [hr] at hla
                    simp only [List.getLast?_nil] at hla
                    rw [hla]
                    rfl
                | cons m ms =>
                    rw [hr] at hla
                    rw [List.getLast?_cons_cons]
                    exact hla
              · rw [hm]
                cases hr : pMatches p rest with
                | nil =>
                    rw [hr] at hlo
                    simp only [List.getLast?_nil] at hlo
                    rw [hlo]
                    rfl
                | cons m ms =>
                    rw [hr] at hlo
                    rw [List.getLast?_cons_cons]
                    exact hlo

/-- Invariant of the first backfill pass, observed at one pair: the pass
keeps the table well-formed, never touches a pair that already has a
contact, leaves an absent pair absent when no call matches it, and creates
exactly one contact with totalCalls 1 for an absent pair with at least one
matching call. -/
theorem runLoop1_char (ws p : String) (nameMap : List (String × String)) (now : Nat)
    (calls : List CallRec) :
    ∀ (st : Db × Nat × Nat), st.1.wf →
      (runLoop1 ws nameMap now st calls).1.wf ∧
      (pairFilter ws p st.1 ≠ [] →
        pairFilter ws p (runLoop1 ws nameMap now st calls).1 = pairFilter ws p st.1) ∧
      (pairFilter ws p st.1 = [] → pMatches p calls = [] →
        pairFilter ws p (runLoop1 ws nameMap now st calls).1 = []) ∧
      (pairFilter ws p st.1 = [] → pMatches p calls ≠ [] →
        ∃ c₀, pairFilter ws p (runLoop1 ws nameMap now st calls).1 = [c₀] ∧
          c₀.totalCalls = 1) := by
  induction calls with
  | nil =>
      intro st hwf
      exact ⟨hwf, fun _ => rfl, fun h _ => h, fun _ hne => absurd rfl hne⟩
  | cons call rest ih =>
      intro st hwf
      have hrun : runLoop1 ws nameMap now st (call :: rest) =
          runLoop1 ws nameMap now (loop1Step ws nameMap now st call) rest := rfl
      cases hv : validTo call.toPhone with
      | false =>
          have hstep : loop1Step ws nameMap now st call = st :=
            loop1Step_invalid hv ws nameMap now st
          have hm : pMatches p (call :: rest) = pMatches p rest := by
            unfold pMatches
            rw [List.filter_cons_of_neg (by simp [hv])]
          rw [hrun, hstep, hm]
          exact ih st hwf
      | true =>
          cases hq : (normPhone call.toPhone == p) with
          | false =>
              have hm : pMatches p (call :: rest) = pMatches p rest := by
                unfold pMatches
                rw [List.filter_cons_of_neg (by simp [hv, hq])]
              cases hg : getContactByPhone st.1 ws (normPhone call.toPhone) with
              | some cq =>
                  have hstep := loop1Step_some hv nameMap now hg
                  obtain ⟨ih0, ih1, ih2, ih3⟩ :=
                    ih (loop1Step ws nameMap now st call) (by rw [hstep]; exact hwf)
                  have hdb : (loop1Step ws nameMap now st call).1 = st.1 := by
                    rw [hstep]
                  rw [hrun, hm]
                  rw [hdb] at ih1 ih2 ih3
                  exact ⟨ih0, ih1, ih2, ih3⟩
              | none =>
                  have hstep := loop1Step_none hv nameMap now hg
                  have hdb : (loop1Step ws nameMap now st call).1 =
                      (upsertContactFromCall st.1 now ws (normPhone call.toPhone)
                        ((mapGet nameMap (normPhone call.toPhone)).getD "")
                        (if call.outcome == "in_progress" then "inbound" else "inbound")).1 := by
                    rw [hstep]
                  have hwf' : (loop1Step ws nameMap now st call).1.wf := by
                    rw [hdb]
                    exact upsert_none_wf hwf now _ _ hg
                  have hpfkeep : pairFilter ws p (loop1Step ws nameMap now st call).1 =
                      pairFilter ws p st.1 := by
                    rw [hdb, upsert_none_fst now _ _ hg]
                    refine pairFilter_append_single_neg st.1 ws p _ _ ?_
                    simp [pairPred, mkCallContact, hq]
                  obtain ⟨ih0, ih1, ih2, ih3⟩ := ih (loop1Step ws nameMap now st call) hwf'
                  rw [hpfkeep] at ih1 ih2 ih3
                  rw [hrun, hm]
                  exact ⟨ih0, ih1, ih2, ih3⟩
          | true =>
              have hqeq : normPhone call.toPhone = p := by simpa using hq
              have hm : pMatches p (call :: rest) = call :: pMatches p rest := by
                unfold pMatches
                rw [List.filter_cons_of_pos (by simp [hv, hq])]
              cases hpf0 : pairFilter ws p st.1 with
              | cons c0 cs =>
                  have hg : getContactByPhone st.1 ws (normPhone call.toPhone) = some c0 := by
                    rw [hqeq, getContactByPhone_eq_head?, hpf0]
                    rfl
                  have hstep := loop1Step_some hv nameMap now hg
                  have hdb : (loop1Step ws nameMap now st call).1 = st.1 := by
                    rw [hstep]
                  obtain ⟨ih0, ih1, ih2, ih3⟩ :=
                    ih (loop1Step ws nameMap now st call) (by rw [hdb]; exact hwf)
                  rw [hdb] at ih1 ih2 ih3
                  rw [hrun]
                  refine ⟨ih0, ?_, ?_, ?_⟩
                  · intro _
                    exact (ih1 (by rw [hpf0]; exact List.cons_ne_nil c0 cs)).trans hpf0
                  · intro habs
                    exact absurd habs (List.cons_ne_nil c0 cs)
                  · intro habs
                    exact absurd habs (List.cons_ne_nil c0 cs)
              | nil =>
                  have hg : getContactByPhone st.1 ws (normPhone call.toPhone) = none := by
                    rw [hqeq, getContactByPhone_eq_head?, hpf0]
                    rfl
                  have hstep := loop1Step_none hv nameMap now hg
                  have hdb : (loop1Step ws nameMap now st call).1 =
                      (upsertContactFromCall st.1 now ws (normPhone call.toPhone)
                        ((mapGet nameMap (normPhone call.toPhone)).getD "")
                        (if call.outcome == "in_progress" then "inbound" else "inbound")).1 := by
                    rw [hstep]
                  have hwf' : (loop1Step ws nameMap now st call).1.wf := by
                    rw [hdb]
                    exact upsert_none_wf hwf now _ _ hg
                  have hpf1 : pairFilter ws p (loop1Step ws nameMap now st call).1 =
                      [mkCallContact st.1.nextId now ws (normPhone call.toPhone)
                        ((mapGet nameMap (normPhone call.toPhone)).getD "")
                        (if call.outcome == "in_progress" then "inbound" else "inbound")] := by
                    rw [hdb, upsert_none_fst now _ _ hg]
                    rw [pairFilter_append_single_pos st.1 ws p _ _
                      (by rw [hqeq]; exact pairPred_mkCallContact ws p _ now _ _)]
                    rw [hpf0, List.nil_append]
                  obtain ⟨ih0, ih1, ih2, ih3⟩ := ih (loop1Step ws nameMap now st call) hwf'
                  rw [hrun]
                  refine ⟨ih0, ?_, ?_, ?_⟩
                  · intro hne
                    exact absurd rfl hne
                  · intro _ habs
                    rw [hm] at habs
                    exact absurd habs (List.cons_ne_nil _ _)
                  · intro _ _
                    refine ⟨mkCallContact st.1.nextId now ws (normPhone call.toPhone)
                      ((mapGet nameMap (normPhone call.toPhone)).getD "")
                      (if call.outcome == "in_progress" then "inbound" else "inbound"), ?_, rfl⟩
                    rw [ih1 (by rw [hpf1]; exact List.cons_ne_nil _ _), hpf1]

/-- C8: every scanned call whose destination is the webtest sentinel or
fails the phone pattern leaves both backfill passes unchanged, and for a
pair with an existing contact the update pass increments totalCalls once
per matching call and overwrites lastCallAt and lastCallOutcome in
iteration order, so the stored values come from the last matching call
processed - not necessarily the chronologically latest one. -/
theorem backfill_last_call_iteration_order (db : Db) (now : Nat) (ws p : String)
    (jobs : List JobRec) (calls : List CallRec) (c : Contact) (m : CallRec)
    (hwf : db.wf) (hc : pairFilter ws p db = [c])
    (hlast : (pMatches p calls).getLast? = some m) :
    (∀ (nameMap : List (String × String)) (acc : Db × Nat × Nat) (d : Db) (call : CallRec),
      call.toPhone = "webtest" ∨ codePhonePattern call.toPhone = false →
      loop1Step ws nameMap now acc call = acc ∧ loop2Step ws now d call = d) ∧
    ∃ c', pairFilter ws p (backfill db now ws jobs calls).1 = [c'] ∧
      c'.totalCalls = c.totalCalls + (pMatches p calls).length ∧
      c'.lastCallAt = some m.startedAt ∧
      c'.lastCallOutcome = some m.outcome := by
  constructor
  · intro nameMap acc d call hcall
    have hv : validTo call.toPhone = false := by
      rcases hcall with h | h
      · rw [h]; decide
      · simp [validTo, h]
    exact ⟨loop1Step_invalid hv ws nameMap now acc, loop2Step_invalid hv ws now d⟩
  · obtain ⟨hwf1, ih1, _, _⟩ :=
      runLoop1_char ws p (buildPhoneToName jobs) now calls (db, 0, 0) hwf
    have hfst : pairFilter ws p ((db, 0, 0) : Db × Nat × Nat).1 = [c] := hc
    have hpf1 : pairFilter ws p
        (runLoop1 ws (buildPhoneToName jobs) now (db, 0, 0) calls).1 = [c] :=
      (ih1 (by rw [hfst]; exact List.cons_ne_nil _ _)).trans hfst
    obtain ⟨c', hpf2, hwf2, htc, hla, hlo⟩ :=
      runLoop2_char ws p now calls _ c hwf1 hpf1
    refine ⟨c', hpf2, htc, ?_, ?_⟩
    · rw [hla, hlast]
    · rw [hlo, hlast]

/-- Witness for C8: the fixture contact sees two matching calls processed
in list order, started at 100 then at 50; the stored lastCallAt ends at 50
with outcome failed, and totalCalls goes from 3 to 5, while the webtest
call in between is skipped. -/
theorem backfill_last_call_iteration_order_witness :
    Db.wf dbOne ∧ pairFilter "w1" "+14155550123" dbOne = [contactW1] ∧
    (pMatches "+14155550123"
      [CallRec.mk "+14155550123" "completed" 100, CallRec.mk "webtest" "x" 0,
        CallRec.mk "+14155550123" "failed" 50]).getLast? =
      some (CallRec.mk "+14155550123" "failed" 50) ∧
    ((∀ (nameMap : List (String × String)) (acc : Db × Nat × Nat) (d : Db) (call : CallRec),
        call.toPhone = "webtest" ∨ codePhonePattern call.toPhone = false →
        loop1Step "w1" nameMap 9 acc call = acc ∧ loop2Step "w1" 9 d call = d) ∧
      ∃ c', pairFilter "w1" "+14155550123"
          (backfill dbOne 9 "w1" []
            [CallRec.mk "+14155550123" "completed" 100, CallRec.mk "webtest" "x" 0,
              CallRec.mk "+14155550123" "failed" 50]).1 = [c'] ∧
        c'.totalCalls = contactW1.totalCalls +
          (pMatches "+14155550123"
            [CallRec.mk "+14155550123" "completed" 100, CallRec.mk "webtest" "x" 0,
              CallRec.mk "+14155550123" "failed" 50]).length ∧
        c'.lastCallAt = some (CallRec.mk "+14155550123" "failed" 50).startedAt ∧
        c'.lastCallOutcome = some (CallRec.mk "+14155550123" "failed" 50).outcome) :=
  ⟨by decide, by decide, by decide,
    backfill_last_call_iteration_order dbOne 9 "w1" "+14155550123" []
      [CallRec.mk "+14155550123" "completed" 100, CallRec.mk "webtest" "x" 0,
        CallRec.mk "+14155550123" "failed" 50] contactW1
      (CallRec.mk "+14155550123" "failed" 50) (by decide) (by decide) (by decide)⟩

/-- C10: for a pair with no stored contact and n matching calls, one
backfill run leaves the pair with exactly one contact whose totalCalls is
n plus one: the creation pass counts the first call once, and the update
pass then counts every one of the n calls again. -/
theorem backfill_new_contact_double_count (db : Db) (now : Nat) (ws p : String)
    (jobs : List JobRec) (calls : List CallRec) (n : Nat)
    (hwf : db.wf) (hempty : pairFilter ws p db = [])
    (hn : (pMatches p calls).length = n) (hpos : 1 ≤ n) :
    (pairFilter ws p (backfill db now ws jobs calls).1).map (fun c => c.totalCalls) =
      [n + 1] := by
  have hne : pMatches p calls ≠ [] := by
    intro h
    rw [h] at hn
    simp at hn
    omega
  obtain ⟨hwf1, _, _, ih3⟩ :=
    runLoop1_char ws p (buildPhoneToName jobs) now calls (db, 0, 0) hwf
  have hfst : pairFilter ws p ((db, 0, 0) : Db × Nat × Nat).1 = [] := hempty
  obtain ⟨c₀, hpf1, htc1⟩ := ih3 hfst hne
  obtain ⟨c', hpf2, hwf2, htc, hla, hlo⟩ :=
    runLoop2_char ws p now calls _ c₀ hwf1 hpf1
  have hgoal : pairFilter ws p (backfill db now ws jobs calls).1 = [c'] := hpf2
  rw [hgoal, List.map_cons, List.map_nil, htc, htc1, hn, Nat.add_comm 1 n]

/-- Witness for C10: an empty table and two matching calls produce one
contact with totalCalls 3. -/
theorem backfill_new_contact_double_count_witness :
    Db.wf dbEmpty ∧ pairFilter "w1" "+14155550123" dbEmpty = [] ∧
    (pMatches "+14155550123"
      [CallRec.mk "+14155550123" "completed" 100, CallRec.mk "webtest" "x" 0,
        CallRec.mk "+14155550123" "failed" 50]).length = 2 ∧ 1 ≤ 2 ∧
    (pairFilter "w1" "+14155550123"
      (backfill dbEmpty 9 "w1" []
        [CallRec.mk "+14155550123" "completed" 100, CallRec.mk "webtest" "x" 0,
          CallRec.mk "+14155550123" "failed" 50]).1).map (fun c => c.totalCalls) =
      [2 + 1] :=
  ⟨by decide, by decide, by decide, by decide,
    backfill_new_contact_double_count dbEmpty 9 "w1" "+14155550123" []
      [CallRec.mk "+14155550123" "completed" 100, CallRec.mk "webtest" "x" 0,
        CallRec.mk "+14155550123" "failed" 50] 2
      (by decide) (by decide) (by decide) (by decide)⟩

/-- Setting a key makes the map return the new value at that key. -/
theorem mapGet_mapSet_self (m : List (String × String)) (k v : String) :
    mapGet (mapSet m k v) k = some v := by
  unfold mapGet mapSet
  rw [List.find?_cons_of_pos _ (by simp)]
  rfl

/-- Setting a key leaves every other key unchanged. -/
theorem mapGet_mapSet_ne (m : List (String × String)) (k v k' : String)
    (h : ¬ k' = k) : mapGet (mapSet m k v) k' = mapGet m k' := by
  unfold mapGet mapSet
  rw [List.find?_cons_of_neg _ (by simp [Ne.symm h])]

/-- A job for another phone never changes the map entry of the observed
phone. -/
theorem mapGet_jobStep_other (m : List (String × String)) (j : JobRec) (p : String)
    (hjp : ¬ j.phone = p) : mapGet (jobStep m j) p = mapGet m p := by
  unfold jobStep
  by_cases hg : (j.phone != "" && j.leadName != "") = true
  · rw [if_pos hg]
    cases hmg : mapGet m j.phone with
    | none => exact mapGet_mapSet_ne m j.phone j.leadName p (fun he => hjp he.symm)
    | some ex =>
        show mapGet (if (ex == "" || decide (ex.length < j.leadName.length)) = true
          then mapSet m j.phone j.leadName else m) p = mapGet m p
        by_cases hc : (ex == "" || decide (ex.length < j.leadName.length)) = true
        · rw [if_pos hc]
          exact mapGet_mapSet_ne m j.phone j.leadName p (fun he => hjp he.symm)
        · rw [if_neg hc]
  · rw [if_neg hg]

/-- Invariant carried through the name-map fold, relative to an abstract
list s of the jobs selected so far for the observed phone: the map entry
is absent exactly when s is empty, and otherwise holds a non-empty longest
lead name taken from s. -/
def nameInv (p : String) (m : List (String × String)) (s : List JobRec) : Prop :=
  match mapGet m p with
  | none => s = []
  | some v => v ≠ "" ∧ (∃ j ∈ s, v = j.leadName) ∧ ∀ j ∈ s, j.leadName.length ≤ v.length

/-- One job preserves the name-map invariant. -/
theorem jobStep_inv (p : String) (hp : p ≠ "") (j : JobRec)
    (m : List (String × String)) (s : List JobRec) (hinv : nameInv p m s) :
    nameInv p (jobStep m j)
      (s ++ (if j.phone == p && j.leadName != "" then [j] else [])) := by
  by_cases hph : j.phone = ""
  · have hstep : jobStep m j = m := by simp [jobStep, hph]
    have hsel : (if j.phone == p && j.leadName != "" then [j] else ([] : List JobRec)) = [] := by
      rw [if_neg (by simp [hph, Ne.symm hp])]
    rw [hstep, hsel, List.append_nil]
    exact hinv
  · by_cases hln : j.leadName = ""
    · have hstep : jobStep m j = m := by simp [jobStep, hln]
      have hsel : (if j.phone == p && j.leadName != "" then [j] else ([] : List JobRec)) = [] := by
        rw [if_neg (by simp [hln])]
      rw [hstep, hsel, List.append_nil]
      exact hinv
    · have hguard : (j.phone != "" && j.leadName != "") = true := by simp [hph, hln]
      by_cases hjp : j.phone = p
      · have hsel : (if j.phone == p && j.leadName != "" then [j]
            else ([] : List JobRec)) = [j] := by
          rw [if_pos (by simp [hjp, hln])]
        rw [hsel]
        cases hmg : mapGet m j.phone with
        | none =>
            have hstep : jobStep m j = mapSet m j.phone j.leadName := by
              simp [jobStep, hguard, hmg]
            have hs : s = [] := by
              unfold nameInv at hinv
              rw [hjp] at hmg
              rw [hmg] at hinv
              exact hinv
            subst hs
            unfold nameInv
            rw [hstep, hjp, mapGet_mapSet_self]
            exact ⟨hln, ⟨j, by simp, rfl⟩, by
              intro j' hj'
              simp at hj'
              subst hj'
              exact Nat.le_refl _⟩
        | some ex =>
            have hmgp : mapGet m p = some ex := by
              rw [← hjp]
              exact hmg
            have hinvx : ex ≠ "" ∧ (∃ j0 ∈ s, ex = j0.leadName) ∧
                ∀ j0 ∈ s, j0.leadName.length ≤ ex.length := by
              unfold nameInv at hinv
              rw [hmgp] at hinv
              exact hinv
            obtain ⟨hexne, ⟨j0, hj0s, hj0⟩, hmax⟩ := hinvx
            by_cases hlt : ex.length < j.leadName.length
            · have hstep : jobStep m j = mapSet m j.phone j.leadName := by
                simp [jobStep, hguard, hmg, hlt]
            
              unfold nameInv
              rw [hstep, hjp, mapGet_mapSet_self]
              refine ⟨hln, ⟨j, by simp, rfl⟩, ?_⟩
              intro j' hj'
              rcases List.mem_append.mp hj' with h1 | h2
              · exact Nat.le_trans (hmax j' h1) (Nat.le_of_lt hlt)
              · simp at h2
                subst h2
                exact Nat.le_refl _
            · have hexb : (ex == "") = false := by simp [hexne]
              have hstep : jobStep m j = m := by
                simp [jobStep, hguard, hmg, hexb, hlt]
              unfold nameInv
              rw [hstep, hmgp]
              refine ⟨hexne, ⟨j0, List.mem_append_left _ hj0s, hj0⟩, ?_⟩
              intro j' hj'
              rcases List.mem_append.mp hj' with h1 | h2
              · exact hmax j' h1
              · simp at h2
                subst h2
                omega
      · have hsel : (if j.phone == p && j.leadName != "" then [j]
            else ([] : List JobRec)) = [] := by
          rw [if_neg (by simp [hjp])]
        rw [hsel, List.append_nil]
        unfold nameInv at hinv ⊢
        rw [mapGet_jobStep_other m j p hjp]
        exact hinv

/-- The fold that builds the name map preserves the invariant. -/
theorem foldl_jobStep_inv (p : String) (hp : p ≠ "") (jobs : List JobRec) :
    ∀ (m : List (String × String)) (s : List JobRec), nameInv p m s →
      nameInv p (jobs.foldl jobStep m) (s ++ jobSel p jobs) := by
  induction jobs with
  | nil =>
      intro m s h
      simpa [jobSel] using h
  | cons j rest ih =>
      intro m s h
      have h2 := ih (jobStep m j)
        (s ++ (if j.phone == p && j.leadName != "" then [j] else []))
        (jobStep_inv p hp j m s h)
      have hsel : jobSel p (j :: rest) =
          (if j.phone == p && j.leadName != "" then [j] else []) ++ jobSel p rest := by
        unfold jobSel
        rw [List.filter_cons]
        by_cases hcond : (j.phone == p && j.leadName != "") = true
        · rw [if_pos hcond, if_pos hcond]
          rfl
        · rw [if_neg hcond, if_neg hcond]
          rfl
      rw [List.foldl_cons, hsel, ← List.append_assoc]
      exact h2

/-- C7: the candidate display name the backfill derives for a phone number
is a longest lead name among that workspace's outbound jobs carrying a
lead name for that number - selection is by string length, and with equal
lengths one of the longest survives - and it is the empty string when no
such job exists. -/
theorem backfill_candidate_name_longest (jobs : List JobRec) (p : String) (hp : p ≠ "") :
    (jobSel p jobs = [] → candidateName jobs p = "") ∧
    (jobSel p jobs ≠ [] → ∃ j, j ∈ jobSel p jobs ∧ candidateName jobs p = j.leadName ∧
      ∀ j' ∈ jobSel p jobs, j'.leadName.length ≤ j.leadName.length) := by
  have hinv0 : nameInv p [] [] := by
    unfold nameInv
    simp [mapGet]
  have hinv := foldl_jobStep_inv p hp jobs [] [] hinv0
  rw [List.nil_append] at hinv
  unfold candidateName buildPhoneToName
  cases hmg : mapGet (jobs.foldl jobStep []) p with
  | none =>
      have hs : jobSel p jobs = [] := by
        unfold nameInv at hinv
        rw [hmg] at hinv
        exact hinv
      constructor
      · intro _
        rfl
      · intro hne
        exact absurd hs hne
  | some v =>
      have hinvx : v ≠ "" ∧ (∃ j ∈ jobSel p jobs, v = j.leadName) ∧
          ∀ j ∈ jobSel p jobs, j.leadName.length ≤ v.length := by
        unfold nameInv at hinv
        rw [hmg] at hinv
        exact hinv
      obtain ⟨hvne, ⟨j, hjs, hjv⟩, hmax⟩ := hinvx
      constructor
      · intro hsel
        rw [hsel] at hjs
        cases hjs
      · intro _
        refine ⟨j, hjs, hjv, ?_⟩
        intro j' hj'
        rw [← hjv]
        exact hmax j' hj'

/-- Witness for C7: among two jobs for the same number the longer name
Albert is selected. -/
theorem backfill_candidate_name_longest_witness :
    ("+14155550123" : String) ≠ "" ∧
    ((jobSel "+14155550123"
        [JobRec.mk "+14155550123" "Al", JobRec.mk "+14155550123" "Albert",
          JobRec.mk "+15550000000" "Z"] = [] →
      candidateName
        [JobRec.mk "+14155550123" "Al", JobRec.mk "+14155550123" "Albert",
          JobRec.mk "+15550000000" "Z"] "+14155550123" = "") ∧
    (jobSel "+14155550123"
        [JobRec.mk "+14155550123" "Al", JobRec.mk "+14155550123" "Albert",
          JobRec.mk "+15550000000" "Z"] ≠ [] →
      ∃ j, j ∈ jobSel "+14155550123"
          [JobRec.mk "+14155550123" "Al", JobRec.mk "+14155550123" "Albert",
            JobRec.mk "+15550000000" "Z"] ∧
        candidateName
          [JobRec.mk "+14155550123" "Al", JobRec.mk "+14155550123" "Albert",
            JobRec.mk "+15550000000" "Z"] "+14155550123" = j.leadName ∧
        ∀ j' ∈ jobSel "+14155550123"
            [JobRec.mk "+14155550123" "Al", JobRec.mk "+14155550123" "Albert",
              JobRec.mk "+15550000000" "Z"],
          j'.leadName.length ≤ j.leadName.length)) :=
  ⟨by decide,
    backfill_candidate_name_longest
      [JobRec.mk "+14155550123" "Al", JobRec.mk "+14155550123" "Albert",
        JobRec.mk "+15550000000" "Z"] "+14155550123" (by decide)⟩
